import Mathlib

/-!
# Verification of the goal-tracker server

A shallow embedding of the Express + SQLite goal-tracking server
(`src/unnamed/part_000`).  The SQLite tables become Lean lists kept in
rowid (insertion) order; `AUTOINCREMENT` primary keys become explicit
counters on the store; each HTTP handler becomes a pure function from
the store (plus the session user and request data) to a response and a
new store.  `DATETIME` values are modelled as natural-number timestamps
(ISO-8601 strings compare lexicographically in the same order).
-/

namespace GoalTracker

/-- A row of the `users` table: `id TEXT PRIMARY KEY, email TEXT UNIQUE,
name TEXT, picture TEXT, ads_removed INTEGER DEFAULT 0`. -/
structure User where
  id : String
  email : Option String
  name : Option String
  picture : Option String
  ads_removed : Nat
  deriving Repr, DecidableEq

/-- A row of the `tasks` table: `id INTEGER PRIMARY KEY AUTOINCREMENT,
user_id TEXT NOT NULL, title TEXT NOT NULL,
created_at DATETIME DEFAULT CURRENT_TIMESTAMP`. -/
structure Task where
  id : Nat
  user_id : String
  title : String
  created_at : Nat
  deriving Repr, DecidableEq

/-- A row of the `subtasks` table: `id INTEGER PRIMARY KEY AUTOINCREMENT,
task_id INTEGER NOT NULL, title TEXT NOT NULL, completed INTEGER DEFAULT 0,
photo_url TEXT, completed_at DATETIME`. -/
structure Subtask where
  id : Nat
  task_id : Nat
  title : String
  completed : Nat
  photo_url : Option String
  completed_at : Option Nat
  deriving Repr, DecidableEq

/-- A row of the `settings` table: `key TEXT PRIMARY KEY, value TEXT`. -/
structure Setting where
  key : String
  value : String
  deriving Repr, DecidableEq

/-- The persistent store: the four tables, each list in rowid order, plus
the `AUTOINCREMENT` counters for the two integer primary keys. -/
structure DB where
  users : List User
  tasks : List Task
  subtasks : List Subtask
  settings : List Setting
  nextTaskId : Nat
  nextSubtaskId : Nat
  deriving Repr, DecidableEq

/-- Outcome of an ownership-checked handler: `403 Forbidden` or a payload. -/
inductive Resp (α : Type) where
  | forbidden : Resp α
  | ok : α → Resp α
  deriving Repr, DecidableEq

/-- `SELECT value FROM settings WHERE key = ?`. -/
def getSetting (db : DB) (k : String) : Option Setting :=
  db.settings.find? (fun s => s.key == k)

/-- `SELECT * FROM users WHERE id = ?`. -/
def findUser (db : DB) (uid : String) : Option User :=
  db.users.find? (fun u => u.id == uid)

/-- `GET /api/settings`.  With a session user it reads that user's row and
answers `user?.ads_removed === 1`; without one it reads the
`'ads_removed'` settings row and answers `value === 'true'` (`none` models
the exception thrown when the settings row is absent, which the schema
initialisation prevents). -/
def getSettings (db : DB) (sess : Option String) : Option Bool :=
  match sess with
  | some uid => some ((findUser db uid).any (fun u => u.ads_removed == 1))
  | none => (getSetting db "ads_removed").map (fun s => s.value == "true")

/-- `POST /api/settings/remove-ads`:
`UPDATE users SET ads_removed = 1 WHERE id = ?` for the session user. -/
def removeAds (db : DB) (uid : String) : DB :=
  { db with users := db.users.map (fun u => if u.id == uid then { u with ads_removed := 1 } else u) }

/-- The user upsert of `GET /api/auth/google/callback`:
`INSERT INTO users (id, email, name, picture) VALUES (?,?,?,?)
ON CONFLICT(id) DO UPDATE SET email=excluded.email, name=excluded.name,
picture=excluded.picture`. -/
def upsertUser (db : DB) (gid email name picture : String) : DB :=
  if db.users.any (fun u => u.id == gid) then
    { db with users := db.users.map (fun u =>
        if u.id == gid then { u with email := some email, name := some name, picture := some picture } else u) }
  else
    let u : User := { id := gid, email := some email, name := some name,
                      picture := some picture, ads_removed := 0 }
    { db with users := db.users ++ [u] }

/-- A task together with its attached subtask list, as returned by
`GET /api/tasks`. -/
structure TaskWithSubtasks where
  task : Task
  subtasks : List Subtask
  deriving Repr, DecidableEq

/-- Comparator for `ORDER BY created_at DESC` on tasks. -/
def taskNewer (a b : Task) : Bool :=
  b.created_at ≤ a.created_at

/-- `GET /api/tasks`:
`SELECT * FROM tasks WHERE user_id = ? ORDER BY created_at DESC`, then for
each task `SELECT * FROM subtasks WHERE task_id = ?` (no ORDER BY: rowid
scan order, i.e. the store's insertion order). -/
def getTasks (db : DB) (uid : String) : List TaskWithSubtasks :=
  ((db.tasks.filter (fun t => t.user_id == uid)).mergeSort taskNewer).map
    (fun t => { task := t, subtasks := db.subtasks.filter (fun s => s.task_id == t.id) })

/-- `POST /api/tasks`: `INSERT INTO tasks (user_id, title) VALUES (?, ?)`;
responds with the new id, the title and an empty subtask list. -/
def createTask (db : DB) (uid title : String) (now : Nat) : TaskWithSubtasks × DB :=
  let t : Task := { id := db.nextTaskId, user_id := uid, title := title, created_at := now }
  ({ task := t, subtasks := [] },
   { db with tasks := db.tasks ++ [t], nextTaskId := db.nextTaskId + 1 })

/-- `DELETE /api/tasks/:id`: first
`SELECT * FROM tasks WHERE id = ? AND user_id = ?`; if no row, 403 and no
change; otherwise `DELETE FROM tasks WHERE id = ?`, which cascades to the
subtasks referencing the task (`ON DELETE CASCADE`). -/
def deleteTask (db : DB) (uid : String) (tid : Nat) : Resp Unit × DB :=
  match db.tasks.find? (fun t => t.id == tid && t.user_id == uid) with
  | none => (Resp.forbidden, db)
  | some _ =>
      (Resp.ok (),
       { db with tasks := db.tasks.filter (fun t => !(t.id == tid)),
                 subtasks := db.subtasks.filter (fun s => !(s.task_id == tid)) })

/-- `POST /api/tasks/:id/subtasks`: same ownership lookup as delete; on
success `INSERT INTO subtasks (task_id, title) VALUES (?, ?)` (so
`completed` defaults to 0 and `photo_url`, `completed_at` to NULL). -/
def createSubtask (db : DB) (uid : String) (tid : Nat) (title : String) : Resp Subtask × DB :=
  match db.tasks.find? (fun t => t.id == tid && t.user_id == uid) with
  | none => (Resp.forbidden, db)
  | some _ =>
      let s : Subtask := { id := db.nextSubtaskId, task_id := tid, title := title,
                           completed := 0, photo_url := none, completed_at := none }
      (Resp.ok s, { db with subtasks := db.subtasks ++ [s], nextSubtaskId := db.nextSubtaskId + 1 })

/-- The ownership join of `PATCH /api/subtasks/:id`:
`SELECT subtasks.* FROM subtasks JOIN tasks ON subtasks.task_id = tasks.id
WHERE subtasks.id = ? AND tasks.user_id = ?`. -/
def findOwnedSubtask (db : DB) (uid : String) (sid : Nat) : Option Subtask :=
  db.subtasks.find? (fun s =>
    s.id == sid && (db.tasks.find? (fun t => t.id == s.task_id)).any (fun t => t.user_id == uid))

/-- Did the request ask for completion?  `completed === "true" ||
completed === "1"` on the raw multipart form field. -/
def parseCompleted (completed : String) : Bool :=
  completed == "true" || completed == "1"

/-- The per-row effect of the two `UPDATE subtasks ... WHERE id = ?`
statements of the PATCH handler: with a photo the update sets
`completed = 1`, the photo URL and `completedAt`; without one it sets
`completed` to the parsed boolean and `completedAt`, leaving `photo_url`
alone.  Rows with a different id are untouched. -/
def patchRow (sid : Nat) (completed : String) (photoUrl : Option String)
    (completedAt : Option Nat) (s : Subtask) : Subtask :=
  if s.id == sid then
    match photoUrl with
    | some url => { s with completed := 1, photo_url := some url, completed_at := completedAt }
    | none =>
        { s with completed := if parseCompleted completed then 1 else 0,
                 completed_at := completedAt }
  else s

/-- `PATCH /api/subtasks/:id`.  `completed` is the raw multipart form
field; `photoFile` is the filename multer stored the uploaded image
under, when one was attached.  `photoUrl = req.file ? '/uploads/' + name
: null`; `completedAt = (completed === 'true' || completed === '1') ?
now : null`.  The response re-reads the row
(`SELECT * FROM subtasks WHERE id = ?`). -/
def patchSubtask (db : DB) (uid : String) (sid : Nat) (completed : String)
    (photoFile : Option String) (now : Nat) : Resp (Option Subtask) × DB :=
  match findOwnedSubtask db uid sid with
  | none => (Resp.forbidden, db)
  | some _ =>
      let photoUrl : Option String := photoFile.map (fun f => "/uploads/" ++ f)
      let completedAt : Option Nat :=
        if parseCompleted completed then some now else none
      let subtasks' := db.subtasks.map (patchRow sid completed photoUrl completedAt)
      let db' := { db with subtasks := subtasks' }
      (Resp.ok (subtasks'.find? (fun s => s.id == sid)), db')

/-- A row of the `GET /api/photos` result: the subtask's columns plus
`tasks.title as task_title`. -/
structure PhotoRow where
  subtask : Subtask
  task_title : String
  deriving Repr, DecidableEq

/-- SQLite ordering on a nullable `DATetime` column: NULL sorts below
every value. -/
def nullLe (a b : Option Nat) : Bool :=
  match a, b with
  | none, _ => true
  | some _, none => false
  | some x, some y => x ≤ y

/-- Comparator for `ORDER BY completed_at DESC` (NULLs last). -/
def photoNewer (a b : PhotoRow) : Bool :=
  nullLe b.subtask.completed_at a.subtask.completed_at

/-- The unsorted rows of the `GET /api/photos` query: the inner join of
`subtasks` with `tasks` on `subtasks.task_id = tasks.id`, restricted by
`tasks.user_id = ? AND photo_url IS NOT NULL`. -/
def photoJoin (db : DB) (uid : String) : List PhotoRow :=
  db.subtasks.filterMap (fun s =>
    match db.tasks.find? (fun t => t.id == s.task_id) with
    | some t =>
        if t.user_id == uid && !(s.photo_url == none) then
          some { subtask := s, task_title := t.title }
        else none
    | none => none)

/-- `GET /api/photos`:
`SELECT subtasks.*, tasks.title as task_title FROM subtasks JOIN tasks ON
subtasks.task_id = tasks.id WHERE tasks.user_id = ? AND photo_url IS NOT
NULL ORDER BY completed_at DESC`. -/
def getPhotos (db : DB) (uid : String) : List PhotoRow :=
  (photoJoin db uid).mergeSort photoNewer

/-- Every operation of the system that touches the store, plus the
read-only endpoints (which take no store argument they could change, and
are listed for completeness of the "no other operation" claim). -/
inductive Op where
  | upsert (gid email name picture : String)
  | removeAds (uid : String)
  | createTask (uid title : String) (now : Nat)
  | deleteTask (uid : String) (tid : Nat)
  | createSubtask (uid : String) (tid : Nat) (title : String)
  | patchSubtask (uid : String) (sid : Nat) (completed : String)
      (photoFile : Option String) (now : Nat)
  | getSettings (sess : Option String)
  | getTasks (uid : String)
  | getPhotos (uid : String)
  | getMe (sess : Option String)
  | logout
  deriving Repr, DecidableEq

/-- The store after one operation. -/
def applyOp (db : DB) : Op → DB
  | Op.upsert gid e n p => upsertUser db gid e n p
  | Op.removeAds uid => removeAds db uid
  | Op.createTask uid title now => (createTask db uid title now).2
  | Op.deleteTask uid tid => (deleteTask db uid tid).2
  | Op.createSubtask uid tid title => (createSubtask db uid tid title).2
  | Op.patchSubtask uid sid c f now => (patchSubtask db uid sid c f now).2
  | Op.getSettings _ => db
  | Op.getTasks _ => db
  | Op.getPhotos _ => db
  | Op.getMe _ => db
  | Op.logout => db

/-- Is an operation the task-delete endpoint? -/
def Op.isDeleteTask : Op → Bool
  | Op.deleteTask _ _ => true
  | _ => false

/-- Well-formedness maintained by the schema: both `AUTOINCREMENT` keys
are strictly increasing along their tables (so in particular unique),
and user ids are unique (`TEXT PRIMARY KEY`). -/
structure WF (db : DB) : Prop where
  tasks_sorted : db.tasks.Pairwise (fun a b => a.id < b.id)
  subtasks_sorted : db.subtasks.Pairwise (fun a b => a.id < b.id)
  users_unique : db.users.Pairwise (fun a b => a.id ≠ b.id)

/-- A small concrete store used to instantiate the theorems: two users,
three tasks, four subtasks, the initial settings row. -/
def exampleDB : DB :=
  { users := [{ id := "u1", email := some "a@b", name := some "A", picture := some "p", ads_removed := 0 },
              { id := "u2", email := some "c@d", name := some "C", picture := some "q", ads_removed := 1 }],
    tasks := [{ id := 1, user_id := "u1", title := "t1", created_at := 10 },
              { id := 2, user_id := "u2", title := "t2", created_at := 20 },
              { id := 3, user_id := "u1", title := "t3", created_at := 30 }],
    subtasks := [{ id := 1, task_id := 1, title := "s1", completed := 0, photo_url := none, completed_at := none },
                 { id := 2, task_id := 1, title := "s2", completed := 1, photo_url := some "/uploads/x.jpg", completed_at := some 15 },
                 { id := 3, task_id := 2, title := "s3", completed := 0, photo_url := none, completed_at := none },
                 { id := 4, task_id := 3, title := "s4", completed := 1, photo_url := some "/uploads/y.jpg", completed_at := some 35 }],
    settings := [{ key := "ads_removed", value := "false" }],
    nextTaskId := 4, nextSubtaskId := 5 }

/-- A second concrete store, agreeing with `exampleDB` on the settings
table but on nothing else (no users at all). -/
def exampleDB2 : DB :=
  { users := [],
    tasks := [],
    subtasks := [],
    settings := [{ key := "ads_removed", value := "false" }],
    nextTaskId := 1, nextSubtaskId := 1 }

/-! ## Helper lemmas -/

/-- `find?` returns the designated element when it is the only member
satisfying the predicate. -/
theorem find_of_mem_unique {α : Type} {p : α → Bool} {a : α} :
    ∀ {l : List α}, a ∈ l → p a = true → (∀ b ∈ l, p b = true → b = a) →
      l.find? p = some a := by
  intro l
  induction l with
  | nil => intro h; simp at h
  | cons x xs ih =>
    intro hmem hpa huniq
    by_cases hx : p x = true
    · have hxa : x = a := huniq x (List.mem_cons_self x xs) hx
      subst hxa
      simp [List.find?, hx]
    · have hax : a ≠ x := fun h => hx (h ▸ hpa)
      have hmem' : a ∈ xs := by
        rcases List.mem_cons.mp hmem with h | h
        · exact absurd h hax
        · exact h
      have hfind := ih hmem' hpa (fun b hb hpb => huniq b (List.mem_cons_of_mem x hb) hpb)
      have hx' : p x = false := Bool.eq_false_iff.mpr hx
      simp only [List.find?, hx', hfind]

/-- Two members of a list pairwise-separated by a key-distinguishing
relation and sharing a key are equal. -/
theorem mem_eq_of_pairwise_key {α β : Type} {key : α → β} {R : α → α → Prop}
    (hR : ∀ x y, R x y → key x ≠ key y) :
    ∀ {l : List α}, l.Pairwise R → ∀ {a b : α}, a ∈ l → b ∈ l → key a = key b → a = b := by
  intro l hl
  induction hl with
  | nil => intro a b ha; simp at ha
  | cons hx _ ih =>
    intro a b ha hb hk
    rcases List.mem_cons.mp ha with rfl | ha' <;> rcases List.mem_cons.mp hb with rfl | hb'
    · rfl
    · exact absurd hk (hR _ _ (hx _ hb'))
    · exact absurd hk.symm (hR _ _ (hx _ ha'))
    · exact ih ha' hb' hk

/-- `patchRow` never changes the id of a row. -/
theorem patchRow_id (sid : Nat) (completed : String) (photoUrl : Option String)
    (completedAt : Option Nat) (s : Subtask) :
    (patchRow sid completed photoUrl completedAt s).id = s.id := by
  unfold patchRow
  split
  · cases photoUrl <;> rfl
  · rfl

/-- On a store with unique subtask ids, a successful PATCH updates the
rows by `patchRow` and answers with the patched row it re-fetched. -/
theorem patchSubtask_eq (db : DB) (uid : String) (sid : Nat) (completed : String)
    (photoFile : Option String) (now : Nat) (s : Subtask)
    (hwf : WF db) (hfind : findOwnedSubtask db uid sid = some s) :
    patchSubtask db uid sid completed photoFile now =
      (Resp.ok (some (patchRow sid completed (photoFile.map (fun f => "/uploads/" ++ f))
                        (if parseCompleted completed then some now else none) s)),
       { db with subtasks := db.subtasks.map (patchRow sid completed
           (photoFile.map (fun f => "/uploads/" ++ f))
           (if parseCompleted completed then some now else none)) }) := by
  have hs_mem : s ∈ db.subtasks := List.mem_of_find?_eq_some hfind
  have hs_pred := List.find?_some hfind
  have hsid : s.id = sid := by
    simp only [Bool.and_eq_true, beq_iff_eq] at hs_pred
    exact hs_pred.1
  set F := patchRow sid completed (photoFile.map (fun f => "/uploads/" ++ f))
      (if parseCompleted completed then some now else none) with hF
  have hfetch : (db.subtasks.map F).find? (fun x => x.id == sid) = some (F s) := by
    apply find_of_mem_unique (List.mem_map_of_mem F hs_mem)
    · simp [hF, patchRow_id, hsid]
    · intro b hb hpb
      rcases List.mem_map.mp hb with ⟨a, ha, rfl⟩
      have haid : a.id = sid := by simpa [hF, patchRow_id] using hpb
      have : a = s := mem_eq_of_pairwise_key (fun x y h => Nat.ne_of_lt h)
        hwf.subtasks_sorted ha hs_mem (by rw [haid, hsid])
      rw [this]
  simp only [patchSubtask, hfind, ← hF, hfetch]

/-! ## Claims -/

/-- C1, counterexample: patching an owned subtask with an image attached
but the `completed` form field set to `"false"` yields a record whose
`completed_at` is NULL, not the current time (`100` here) — the handler
derives `completedAt` from the form field even when a photo is present. -/
theorem C1_counterexample :
    (patchSubtask exampleDB "u1" 1 "false" (some "f.jpg") 100).1 =
      Resp.ok (some { id := 1, task_id := 1, title := "s1", completed := 1,
                      photo_url := some "/uploads/f.jpg", completed_at := none })
    ∧ (none : Option Nat) ≠ some 100 := by
  constructor
  · decide
  · decide

/-- C1, amended: for every PATCH on an owned subtask with an image
attached, the updated record has `completed = 1` and `photo_url` set to
the stored image's URL regardless of the `completed` form field, and
`completed_at` set to the current time exactly when the form field parses
as true (`"true"` or `"1"`), else NULL. -/
theorem C1_amended_patch_with_photo (db : DB) (uid : String) (sid : Nat)
    (completed : String) (f : String) (now : Nat) (s : Subtask)
    (hwf : WF db) (hfind : findOwnedSubtask db uid sid = some s) :
    (patchSubtask db uid sid completed (some f) now).1 =
      Resp.ok (some { s with completed := 1, photo_url := some ("/uploads/" ++ f), completed_at := if parseCompleted completed then some now else none }) := by
  have h := patchSubtask_eq db uid sid completed (some f) now s hwf hfind
  have hs_pred := List.find?_some hfind
  have hsid : (s.id == sid) = true := by
    simp only [Bool.and_eq_true] at hs_pred
    exact hs_pred.1
  rw [h]
  simp [patchRow, hsid]

/-- C1, witness for the amended theorem at a concrete store. -/
theorem C1_amended_witness :
    (patchSubtask exampleDB "u1" 1 "true" (some "f.jpg") 100).1 =
      Resp.ok (some { id := 1, task_id := 1, title := "s1", completed := 1,
                      photo_url := some "/uploads/f.jpg", completed_at := some 100 }) := by
  have h := C1_amended_patch_with_photo exampleDB "u1" 1 "true" "f.jpg" 100
      { id := 1, task_id := 1, title := "s1", completed := 0, photo_url := none, completed_at := none }
      ⟨by decide, by decide, by decide⟩ (by decide)
  simpa [parseCompleted] using h

/-- C2: a DELETE on a task id that the session user does not own (whether
the task belongs to another user or does not exist) answers 403 Forbidden
and leaves the whole store unchanged. -/
theorem C2_delete_forbidden_unchanged (db : DB) (uid : String) (tid : Nat)
    (h : ∀ t ∈ db.tasks, t.id = tid → t.user_id ≠ uid) :
    deleteTask db uid tid = (Resp.forbidden, db) := by
  have hfind : db.tasks.find? (fun t => t.id == tid && t.user_id == uid) = none := by
    rw [List.find?_eq_none]
    intro t ht
    simp only [Bool.and_eq_true, beq_iff_eq, not_and]
    intro h1 h2
    exact h t ht h1 h2
  simp [deleteTask, hfind]

/-- C2, witness: user `u2` attempting to delete `u1`'s task 1 is refused
and the store is untouched. -/
theorem C2_witness :
    deleteTask exampleDB "u2" 1 = (Resp.forbidden, exampleDB) :=
  C2_delete_forbidden_unchanged exampleDB "u2" 1 (by decide)

/-- C6: a PATCH on an owned subtask with no image sets `completed` to the
parsed request boolean, sets `completed_at` to the current time exactly
when that boolean is true (NULL otherwise, so it is non-NULL iff the
boolean is true), and leaves `photo_url` as it was. -/
theorem C6_patch_no_photo (db : DB) (uid : String) (sid : Nat)
    (completed : String) (now : Nat) (s : Subtask)
    (hwf : WF db) (hfind : findOwnedSubtask db uid sid = some s) :
    (patchSubtask db uid sid completed none now).1 =
      Resp.ok (some { s with completed := if parseCompleted completed then 1 else 0, completed_at := if parseCompleted completed then some now else none })
    ∧ (({ s with completed := if parseCompleted completed then 1 else 0, completed_at := if parseCompleted completed then some now else none } : Subtask).completed_at ≠ none
        ↔ parseCompleted completed = true)
    ∧ ({ s with completed := if parseCompleted completed then 1 else 0, completed_at := if parseCompleted completed then some now else none } : Subtask).photo_url = s.photo_url := by
  have h := patchSubtask_eq db uid sid completed none now s hwf hfind
  have hs_pred := List.find?_some hfind
  have hsid : (s.id == sid) = true := by
    simp only [Bool.and_eq_true] at hs_pred
    exact hs_pred.1
  refine ⟨?_, ?_, rfl⟩
  · rw [h]
    simp [patchRow, hsid]
  · by_cases hc : parseCompleted completed = true <;> simp [hc]

/-- C6, witness: the spec's scenario — create subtask "step1" under
`u1`'s task 1, PATCH it with `completed="true"` and no photo; the record
comes back `completed=1`, `photo_url=NULL`, `completed_at` non-NULL. -/
theorem C6_witness :
    (patchSubtask (createSubtask exampleDB "u1" 1 "step1").2 "u1" 5 "true" none 42).1 =
      Resp.ok (some { id := 5, task_id := 1, title := "step1", completed := 1,
                      photo_url := none, completed_at := some 42 }) := by
  have h := C6_patch_no_photo (createSubtask exampleDB "u1" 1 "step1").2 "u1" 5 "true" 42
      { id := 5, task_id := 1, title := "step1", completed := 0, photo_url := none, completed_at := none }
      ⟨by decide, by decide, by decide⟩ (by decide)
  simpa [parseCompleted] using h.1

/-- C7: a PATCH with `completed="false"` and no image on an owned subtask
that has a stored photo sets `completed` to 0 and `completed_at` to NULL
but leaves the stored `photo_url` in place. -/
theorem C7_uncomplete_keeps_photo (db : DB) (uid : String) (sid : Nat) (now : Nat)
    (s : Subtask) (p : String)
    (hwf : WF db) (hfind : findOwnedSubtask db uid sid = some s)
    (hp : s.photo_url = some p) :
    (patchSubtask db uid sid "false" none now).1 =
      Resp.ok (some { s with completed := 0, completed_at := none })
    ∧ ({ s with completed := 0, completed_at := (none : Option Nat) } : Subtask).photo_url = some p := by
  have h := patchSubtask_eq db uid sid "false" none now s hwf hfind
  have hs_pred := List.find?_some hfind
  have hsid : (s.id == sid) = true := by
    simp only [Bool.and_eq_true] at hs_pred
    exact hs_pred.1
  have hparse : parseCompleted "false" = false := by decide
  refine ⟨?_, hp⟩
  rw [h]
  simp [patchRow, hsid, hparse]

/-- C7, witness: un-completing subtask 2 (which carries a photo) keeps
its `photo_url`. -/
theorem C7_witness :
    (patchSubtask exampleDB "u1" 2 "false" none 50).1 =
      Resp.ok (some { id := 2, task_id := 1, title := "s2", completed := 0,
                      photo_url := some "/uploads/x.jpg", completed_at := none }) := by
  have h := C7_uncomplete_keeps_photo exampleDB "u1" 2 50
      { id := 2, task_id := 1, title := "s2", completed := 1, photo_url := some "/uploads/x.jpg", completed_at := some 15 }
      "/uploads/x.jpg" ⟨by decide, by decide, by decide⟩ (by decide) rfl
  simpa using h.1

/-- C3: deleting an owned task removes exactly that task and exactly the
subtasks referencing it (the cascade), and no operation of the system
other than the task-delete endpoint ever removes a subtask: after any
other operation, every previously stored subtask id is still stored. -/
theorem C3_cascade_delete_only (db : DB) (uid : String) (tid : Nat) (t : Task)
    (hmem : t ∈ db.tasks) (hid : t.id = tid) (hown : t.user_id = uid) :
    (∀ s : Subtask, s ∈ (deleteTask db uid tid).2.subtasks ↔ s ∈ db.subtasks ∧ s.task_id ≠ tid)
    ∧ (∀ x : Task, x ∈ (deleteTask db uid tid).2.tasks ↔ x ∈ db.tasks ∧ x.id ≠ tid)
    ∧ (∀ (e : DB) (op : Op), op.isDeleteTask = false →
        ∀ s ∈ e.subtasks, ∃ r ∈ (applyOp e op).subtasks, r.id = s.id) := by
  obtain ⟨x, hfx⟩ : ∃ x, db.tasks.find? (fun a => a.id == tid && a.user_id == uid) = some x := by
    cases hf : db.tasks.find? (fun a => a.id == tid && a.user_id == uid) with
    | none =>
      rw [List.find?_eq_none] at hf
      exact absurd (by simp [hid, hown]) (hf t hmem)
    | some x => exact ⟨x, rfl⟩
  refine ⟨?_, ?_, ?_⟩
  · intro s
    simp [deleteTask, hfx, List.mem_filter]
  · intro x'
    simp [deleteTask, hfx, List.mem_filter]
  · intro e op hop s hs
    cases op with
    | deleteTask _ _ => simp [Op.isDeleteTask] at hop
    | upsert g em nm pc =>
      refine ⟨s, ?_, rfl⟩
      show s ∈ (upsertUser e g em nm pc).subtasks
      unfold upsertUser
      split
      · exact hs
      · exact hs
    | removeAds v => exact ⟨s, hs, rfl⟩
    | createTask v ttl nw => exact ⟨s, hs, rfl⟩
    | createSubtask v td ttl =>
      refine ⟨s, ?_, rfl⟩
      show s ∈ (createSubtask e v td ttl).2.subtasks
      unfold createSubtask
      cases hf : e.tasks.find? (fun a => a.id == td && a.user_id == v) with
      | none => exact hs
      | some _ => exact List.mem_append_left _ hs
    | patchSubtask v sd c f nw =>
      show ∃ r ∈ (patchSubtask e v sd c f nw).2.subtasks, r.id = s.id
      unfold patchSubtask
      cases hf : findOwnedSubtask e v sd with
      | none => exact ⟨s, hs, rfl⟩
      | some _ =>
        refine ⟨_, List.mem_map_of_mem _ hs, ?_⟩
        exact patchRow_id _ _ _ _ _
    | getSettings sess => exact ⟨s, hs, rfl⟩
    | getTasks v => exact ⟨s, hs, rfl⟩
    | getPhotos v => exact ⟨s, hs, rfl⟩
    | getMe sess => exact ⟨s, hs, rfl⟩
    | logout => exact ⟨s, hs, rfl⟩

/-- C3, witness: after `u1` deletes task 1, subtask 3 (which belongs to
task 2) is still stored exactly when it was stored with a different
parent, while subtask 1 (parent task 1) is gone. -/
theorem C3_witness :
    (({ id := 3, task_id := 2, title := "s3", completed := 0, photo_url := none, completed_at := none } : Subtask)
        ∈ (deleteTask exampleDB "u1" 1).2.subtasks
      ↔ ({ id := 3, task_id := 2, title := "s3", completed := 0, photo_url := none, completed_at := none } : Subtask)
        ∈ exampleDB.subtasks ∧ (2 : Nat) ≠ 1) :=
  (C3_cascade_delete_only exampleDB "u1" 1
    { id := 1, user_id := "u1", title := "t1", created_at := 10 }
    (by decide) rfl rfl).1
    { id := 3, task_id := 2, title := "s3", completed := 0, photo_url := none, completed_at := none }

/-- C4: `GET /api/tasks` returns exactly the session user's tasks (a
permutation of the ownership filter), sorted newest-created first, and
each entry carries exactly the subtasks referencing it, in ascending id
order (the store keeps subtasks in ascending id order and the unordered
scan preserves it). -/
theorem C4_getTasks (db : DB) (uid : String) (hwf : WF db) :
    List.Perm ((getTasks db uid).map TaskWithSubtasks.task)
        (db.tasks.filter (fun t => t.user_id == uid))
    ∧ ((getTasks db uid).map TaskWithSubtasks.task).Pairwise
        (fun a b => b.created_at ≤ a.created_at)
    ∧ ∀ x ∈ getTasks db uid,
        x.subtasks = db.subtasks.filter (fun s => s.task_id == x.task.id)
        ∧ x.subtasks.Pairwise (fun a b => a.id < b.id) := by
  have hmap : (getTasks db uid).map TaskWithSubtasks.task
      = (db.tasks.filter (fun t => t.user_id == uid)).mergeSort taskNewer := by
    simp only [getTasks, List.map_map]
    exact List.map_id' _
  have htrans : ∀ a b c : Task, taskNewer a b → taskNewer b c → taskNewer a c := by
    intro a b c h1 h2
    simp only [taskNewer, decide_eq_true_eq] at h1 h2 ⊢
    omega
  have htotal : ∀ a b : Task, taskNewer a b || taskNewer b a := by
    intro a b
    simp only [taskNewer, Bool.or_eq_true, decide_eq_true_eq]
    omega
  refine ⟨?_, ?_, ?_⟩
  · rw [hmap]
    exact List.mergeSort_perm _ _
  · rw [hmap]
    refine (List.sorted_mergeSort htrans htotal _).imp ?_
    intro a b h
    simpa [taskNewer, decide_eq_true_eq] using h
  · intro x hx
    simp only [getTasks, List.mem_map] at hx
    obtain ⟨t, ht, rfl⟩ := hx
    exact ⟨rfl, hwf.subtasks_sorted.filter _⟩

/-- C4, witness: at the example store for user `u1`. -/
theorem C4_witness :
    List.Perm ((getTasks exampleDB "u1").map TaskWithSubtasks.task)
      (exampleDB.tasks.filter (fun t => t.user_id == "u1")) :=
  (C4_getTasks exampleDB "u1" ⟨by decide, by decide, by decide⟩).1

/-- C5: `GET /api/photos` returns exactly the join rows for subtasks
whose parent task belongs to the session user and whose `photo_url` is
non-NULL (a permutation of that join, sound and complete), each
annotated with the parent task's title, sorted by `completed_at`
descending (NULLs last, as SQLite sorts NULL below every value). -/
theorem C5_getPhotos (db : DB) (uid : String) (hwf : WF db) :
    List.Perm (getPhotos db uid) (photoJoin db uid)
    ∧ (getPhotos db uid).Pairwise
        (fun a b => nullLe b.subtask.completed_at a.subtask.completed_at)
    ∧ (∀ r ∈ getPhotos db uid, r.subtask ∈ db.subtasks ∧ r.subtask.photo_url ≠ none
        ∧ ∃ t ∈ db.tasks, t.id = r.subtask.task_id ∧ t.user_id = uid ∧ r.task_title = t.title)
    ∧ (∀ s ∈ db.subtasks, ∀ t ∈ db.tasks, t.id = s.task_id → t.user_id = uid →
        s.photo_url ≠ none →
        ({ subtask := s, task_title := t.title } : PhotoRow) ∈ getPhotos db uid) := by
  have ptrans : ∀ a b c : PhotoRow, photoNewer a b → photoNewer b c → photoNewer a c := by
    intro a b c h1 h2
    simp only [photoNewer] at h1 h2 ⊢
    cases hx : c.subtask.completed_at <;> cases hy : b.subtask.completed_at <;>
      cases hz : a.subtask.completed_at <;>
      rw [hx] at h2 <;> rw [hy] at h1 h2 <;> rw [hz] at h1 <;>
      simp_all [nullLe] <;> omega
  have ptotal : ∀ a b : PhotoRow, photoNewer a b || photoNewer b a := by
    intro a b
    simp only [photoNewer, Bool.or_eq_true]
    cases a.subtask.completed_at <;> cases b.subtask.completed_at <;> simp [nullLe] <;> omega
  refine ⟨?_, ?_, ?_, ?_⟩
  · exact List.mergeSort_perm _ _
  · exact (List.sorted_mergeSort ptrans ptotal _).imp (fun h => h)
  · intro r hr
    have hr' : r ∈ photoJoin db uid := List.mem_mergeSort.mp hr
    simp only [photoJoin, List.mem_filterMap] at hr'
    obtain ⟨s, hs, hFs⟩ := hr'
    cases hft : db.tasks.find? (fun t => t.id == s.task_id) with
    | none => rw [hft] at hFs; simp at hFs
    | some t =>
      rw [hft] at hFs
      by_cases hcond : (t.user_id == uid && !(s.photo_url == none)) = true
      · simp only [hcond, if_true] at hFs
        obtain rfl := Option.some_injective _ hFs
        have hc : (t.user_id == uid) = true ∧ (!(s.photo_url == none)) = true := by
          simpa using hcond
        have hpne : s.photo_url ≠ none := by
          have := hc.2
          simp only [Bool.not_eq_true'] at this
          exact beq_eq_false_iff_ne.mp this
        have hpred := List.find?_some hft
        refine ⟨hs, hpne, t, List.mem_of_find?_eq_some hft, ?_, ?_, rfl⟩
        · exact beq_iff_eq.mp hpred
        · exact beq_iff_eq.mp hc.1
      · simp [hcond] at hFs
  · intro s hs t ht htid htuid hp
    have hft : db.tasks.find? (fun a => a.id == s.task_id) = some t := by
      apply find_of_mem_unique ht (by simp [htid])
      intro b hb hpb
      have hbid : b.id = s.task_id := by simpa using hpb
      exact mem_eq_of_pairwise_key (fun x y h => Nat.ne_of_lt h)
        hwf.tasks_sorted hb ht (by rw [hbid, htid])
    have hpf : (s.photo_url == none) = false := beq_eq_false_iff_ne.mpr hp
    have hjoin : ({ subtask := s, task_title := t.title } : PhotoRow) ∈ photoJoin db uid := by
      simp only [photoJoin, List.mem_filterMap]
      exact ⟨s, hs, by simp [hft, htuid, hpf]⟩
    exact List.mem_mergeSort.mpr hjoin

/-- C5, witness: at the example store for user `u1`. -/
theorem C5_witness :
    List.Perm (getPhotos exampleDB "u1") (photoJoin exampleDB "u1") :=
  (C5_getPhotos exampleDB "u1" ⟨by decide, by decide, by decide⟩).1

/-- C8: with a session, `GET /api/settings` answers the session user's
own ads-removed flag; without one it answers from the settings
singleton, so any two stores agreeing on the settings table give
unauthenticated callers the same answer, whatever their user rows say. -/
theorem C8_settings (db db1 db2 : DB) (uid : String) (u : User)
    (hwf : WF db) (hmem : u ∈ db.users) (hid : u.id = uid)
    (hset : db1.settings = db2.settings) :
    getSettings db (some uid) = some (u.ads_removed == 1)
    ∧ getSettings db1 none = getSettings db2 none := by
  constructor
  · have hfu : findUser db uid = some u := by
      apply find_of_mem_unique hmem (by simp [hid])
      intro b hb hpb
      have hbid : b.id = uid := by simpa using hpb
      exact mem_eq_of_pairwise_key (fun x y h => h)
        hwf.users_unique hb hmem (by rw [hbid, hid])
    simp [getSettings, hfu]
  · simp [getSettings, getSetting, hset]

/-- C8, witness: authenticated `u2` sees their own flag; the example
store and the user-free second store agree on the settings table and on
the anonymous answer. -/
theorem C8_witness :
    getSettings exampleDB (some "u2") = some true
    ∧ getSettings exampleDB none = getSettings exampleDB2 none := by
  have h := C8_settings exampleDB exampleDB exampleDB2 "u2"
      { id := "u2", email := some "c@d", name := some "C", picture := some "q", ads_removed := 1 }
      ⟨by decide, by decide, by decide⟩ (by decide) rfl (by decide)
  simpa using h

/-- C9: `POST /api/settings/remove-ads` is idempotent on the store, and
afterwards `GET /api/settings` for that session reads true. -/
theorem C9_removeAds_idempotent (db : DB) (uid : String) (u : User)
    (hwf : WF db) (hmem : u ∈ db.users) (hid : u.id = uid) :
    removeAds (removeAds db uid) uid = removeAds db uid
    ∧ getSettings (removeAds db uid) (some uid) = some true := by
  constructor
  · simp only [removeAds, List.map_map]
    refine congrArg (fun l => ({ db with users := l } : DB)) ?_
    apply List.map_congr_left
    intro a _
    by_cases h : (a.id == uid) = true
    · simp [Function.comp, h]
    · simp [Function.comp, h]
  · have hfu : findUser (removeAds db uid) uid = some { u with ads_removed := 1 } := by
      have hmem' : ({ u with ads_removed := 1 } : User) ∈ (removeAds db uid).users := by
        have : ({ u with ads_removed := 1 } : User)
            = (fun v => if v.id == uid then { v with ads_removed := 1 } else v) u := by
          simp [hid]
        rw [this]
        exact List.mem_map_of_mem _ hmem
      apply find_of_mem_unique hmem' (by simp [hid])
      intro b hb hpb
      rcases List.mem_map.mp hb with ⟨a, ha, rfl⟩
      have haid : a.id = uid := by
        by_cases h : (a.id == uid) = true
        · exact beq_iff_eq.mp h
        · simp only [h, if_neg] at hpb
          simp at hpb
          exact absurd (beq_iff_eq.mpr hpb) h
      have hau : a = u := mem_eq_of_pairwise_key (fun x y h => h)
        hwf.users_unique ha hmem (by rw [haid, hid])
      subst hau
      simp [haid]
    simp [getSettings, hfu]

/-- C9, witness: `u1` (flag initially 0) removing ads twice equals once,
and the flag then reads true. -/
theorem C9_witness :
    removeAds (removeAds exampleDB "u1") "u1" = removeAds exampleDB "u1"
    ∧ getSettings (removeAds exampleDB "u1") (some "u1") = some true :=
  C9_removeAds_idempotent exampleDB "u1"
    { id := "u1", email := some "a@b", name := some "A", picture := some "p", ads_removed := 0 }
    ⟨by decide, by decide, by decide⟩ (by decide) rfl

/-- C10: when the login callback's upsert hits an existing user row, it
overwrites only `email`, `name` and `picture`: every user keeps their id
and `ads_removed` flag, the matching row carries the new profile fields,
and every other row is untouched. -/
theorem C10_upsert_frame (db : DB) (gid e n p : String) (u : User)
    (hmem : u ∈ db.users) (hid : u.id = gid) :
    ((upsertUser db gid e n p).users.map (fun v => (v.id, v.ads_removed))
        = db.users.map (fun v => (v.id, v.ads_removed)))
    ∧ (∀ v ∈ (upsertUser db gid e n p).users, v.id = gid →
         v.email = some e ∧ v.name = some n ∧ v.picture = some p)
    ∧ (∀ v ∈ (upsertUser db gid e n p).users, v.id ≠ gid → v ∈ db.users) := by
  have hany : db.users.any (fun v => v.id == gid) = true :=
    List.any_eq_true.mpr ⟨u, hmem, by simp [hid]⟩
  simp only [upsertUser, hany, if_true]
  refine ⟨?_, ?_, ?_⟩
  · rw [List.map_map]
    apply List.map_congr_left
    intro a _
    by_cases h : (a.id == gid) = true
    · simp [Function.comp, h]
    · simp [Function.comp, h]
  · intro v hv hvid
    rcases List.mem_map.mp hv with ⟨a, ha, rfl⟩
    by_cases h : (a.id == gid) = true
    · simp [h]
    · simp only [h, if_neg] at hvid ⊢
      simp at hvid ⊢
      exact absurd (beq_iff_eq.mpr hvid) h
  · intro v hv hvid
    rcases List.mem_map.mp hv with ⟨a, ha, rfl⟩
    by_cases h : (a.id == gid) = true
    · exfalso
      apply hvid
      simp [h]
      exact beq_iff_eq.mp h
    · simpa [h] using ha

/-- C10, witness: re-login of `u1` keeps every `(id, ads_removed)` pair. -/
theorem C10_witness :
    (upsertUser exampleDB "u1" "new@e" "N" "pic").users.map (fun v => (v.id, v.ads_removed))
      = exampleDB.users.map (fun v => (v.id, v.ads_removed)) :=
  (C10_upsert_frame exampleDB "u1" "new@e" "N" "pic"
    { id := "u1", email := some "a@b", name := some "A", picture := some "p", ads_removed := 0 }
    (by decide) rfl).1

end GoalTracker
